import Mathlib

/-!
Verification of the go-wintask repository (package tasker, src/tasker.go),
a command builder and invoker around the Windows SCHTASKS utility.

The Go code is shallowly embedded: strings are Lean strings, argument
vectors are lists of strings, and each public operation is a pure function
from an explicit environment (the path of the running executable, the
package-level Debug flag, and the combined output the external binary
would produce for an invocation) to the list of invocations issued plus
the value the Go function returns.  A run-time panic of the Go code
(an out-of-range index in the Query parsing loop) is modelled as Option:
`none` is a panic.

Go string primitives used by the source (strings.TrimSpace, TrimSuffix,
Split on a one-character separator, Replace of a quote by the empty
string, Contains, HasPrefix, ToLower restricted to ASCII letters as the
source only compares ASCII task names, and bufio.ScanLines) are embedded
first, over the character lists underlying Lean strings.
-/

namespace Tasker

/-- Character class of Go unicode.IsSpace: the Latin-1 white space
characters together with the Unicode White_Space code points, used by
strings.TrimSpace. -/
def isGoSpace (c : Char) : Bool :=
  [' ', '\t', '\n', '\x0b', '\x0c', '\r', '\u0085', '\u00a0',
   '\u1680', '\u2000', '\u2001', '\u2002', '\u2003', '\u2004', '\u2005',
   '\u2006', '\u2007', '\u2008', '\u2009', '\u200a', '\u2028', '\u2029',
   '\u202f', '\u205f', '\u3000'].contains c

/-- Drop leading white space of a character list. -/
def trimL (l : List Char) : List Char := l.dropWhile isGoSpace

/-- Drop trailing white space of a character list. -/
def trimR (l : List Char) : List Char := (l.reverse.dropWhile isGoSpace).reverse

/-- Embeds strings.TrimSpace: drop white space from both ends. -/
def goTrimSpace (s : String) : String := ⟨trimL (trimR s.data)⟩

/-- Embeds strings.TrimSuffix: remove one occurrence of the given suffix
when present. -/
def goTrimSuffix (s suf : String) : String :=
  if suf.data.isSuffixOf s.data then ⟨s.data.take (s.data.length - suf.data.length)⟩ else s

/-- Embeds strings.Split for a one-character separator, on character
lists: the list of fields between occurrences of the separator.  Never
returns the empty list. -/
def splitChar (sep : Char) : List Char → List (List Char)
  | [] => [[]]
  | c :: rest =>
    if c = sep then [] :: splitChar sep rest
    else
      match splitChar sep rest with
      | [] => [[c]]
      | h :: t => (c :: h) :: t

/-- Embeds strings.Split of a string on a one-character separator. -/
def goSplit (s : String) (sep : Char) : List String := (splitChar sep s.data).map fun l => ⟨l⟩

/-- Embeds the dropCR step of bufio.ScanLines: remove one trailing
carriage return. -/
def dropCR (l : List Char) : List Char := if l.getLast? = some '\r' then l.dropLast else l

/-- Embeds the token stream of bufio.Scanner with bufio.ScanLines: split
on newlines, no empty token for a trailing final newline, one trailing
carriage return removed per line. -/
def goLines (s : String) : List String :=
  if s.data.isEmpty then []
  else
    let parts := splitChar '\n' s.data
    let parts := if parts.getLast? = some [] then parts.dropLast else parts
    parts.map fun l => ⟨dropCR l⟩

/-- Embeds strings.Replace(s, quote, empty, -1): every double-quote
character is removed. -/
def stripQuotes (s : String) : String := ⟨s.data.filter (fun c => c ≠ '"')⟩

/-- Embeds strings.Contains: the second string occurs contiguously in the
first. -/
def goContains (s sub : String) : Bool := decide (sub.data <:+: s.data)

/-- Embeds strings.HasPrefix. -/
def goHasPrefix (s pre : String) : Bool := decide (pre.data <+: s.data)

/-- Embeds strings.ToLower on the ASCII letters, which is all the source
compares; Char.toLower lowers exactly the ASCII upper-case letters. -/
def goToLower (s : String) : String := ⟨s.data.map Char.toLower⟩

/-- Embeds type Task of src/tasker.go: name, datetime and status of one
scheduled task parsed from a CSV line. -/
structure Task where
  name : String
  datetime : String
  status : String
deriving DecidableEq, Repr

/-- Embeds type TaskCreate of src/tasker.go with the zero value of each
field as default, matching a Go composite literal that omits fields. -/
structure TaskCreate where
  Username : String := ""
  Password : String := ""
  Taskname : String := ""
  Taskrun : String := ""
  Arguments : List String := []
  Schedule : String := ""
  Modifier : String := ""
  Days : List String := []
  Months : List String := []
  Idletime : String := ""
  Starttime : String := ""
  Interval : String := ""
  Endtime : String := ""
  Duration : String := ""
  Terminate : Bool := false
  Startdate : String := ""
  Enddate : String := ""
  ChannelName : String := ""
  NoPassword : Bool := false
  MarkDelete : Bool := false
  Force : Bool := false
  Level : String := ""
  Delaytime : String := ""
deriving DecidableEq, Repr

/-- Embeds type SchTask of src/tasker.go.  The Go field named after the
fixed task-name namespace string is called pfx here. -/
structure SchTask where
  bin : String
  pfx : String
  compatibility : Bool
deriving DecidableEq, Repr

/-- One call of the external binary: the binary name and its argument
vector, as passed to exec.Command. -/
structure Invocation where
  bin : String
  args : List String
deriving DecidableEq, Repr

/-- Ambient state the Go code reads: exePath is path.Join(getCurrDir(),
getCurrExe()) of the running executable, debug is the package-level Debug
variable, and run gives the combined output a successful invocation of
the external binary produces (a failing invocation makes the Go code call
log.Fatal, terminating the process, so only successful runs return). -/
structure Env where
  exePath : String
  debug : Bool
  run : Invocation → String

/-- Embeds const taskerFile. -/
def taskerFile : String := "SCHTASKS"

/-- Embeds var dbgMessage. -/
def dbgMessage : String := "You are currently in debug mode."

/-- Field layout of the Go anonymous struct held in var _Create. -/
structure CreateFlags where
  Command : String
  username : String
  password : String
  schedule : String
  modifier : String
  days : String
  months : String
  idletime : String
  taskname : String
  taskrun : String
  starttime : String
  interval : String
  endtime : String
  duration : String
  terminate : String
  startdate : String
  enddate : String
  channelName : String
  noPassword : String
  markDelete : String
  preVista : String
  force : String
  level : String
  delaytime : String

/-- Embeds var _Create of src/tasker.go: flag spellings for /CREATE. -/
def _Create : CreateFlags :=
  { Command := "/CREATE", username := "/RU", password := "/RP", schedule := "/SC",
    modifier := "/MO", days := "/D", months := "/M", idletime := "/I",
    taskname := "/TN", taskrun := "/TR", starttime := "/ST", interval := "/RI",
    endtime := "/ET", duration := "/DU", terminate := "/K", startdate := "/SD",
    enddate := "/ED", channelName := "/EC", noPassword := "/NP", markDelete := "/Z",
    preVista := "/V1", force := "/F", level := "/RL", delaytime := "/DELAY" }

/-- Field layout of the Go anonymous struct held in var _Delete. -/
structure DeleteFlags where
  Command : String
  taskname : String
  force : String

/-- Embeds var _Delete. -/
def _Delete : DeleteFlags := { Command := "/DELETE", taskname := "/TN", force := "/F" }

/-- Field layout of the Go anonymous struct held in var _Query. -/
structure QueryFlags where
  Command : String
  format : String
  formatCSV : String
  formatLIST : String
  formatTABLE : String
  noHeader : String

/-- Embeds var _Query. -/
def _Query : QueryFlags :=
  { Command := "/QUERY", format := "/FO", formatCSV := "CSV", formatLIST := "LIST",
    formatTABLE := "TABLE", noHeader := "/NH" }

/-- Field layout of the Go anonymous struct held in var _Change. -/
structure ChangeFlags where
  Command : String

/-- Embeds var _Change. -/
def _Change : ChangeFlags := { Command := "/CHANGE" }

/-- Field layout of the Go anonymous struct held in var _Run. -/
structure RunFlags where
  Command : String
  immediate : String
  taskname : String

/-- Embeds var _Run. -/
def _Run : RunFlags := { Command := "/RUN", taskname := "/TN", immediate := "/I" }

/-- Field layout of the Go anonymous struct held in var _End. -/
structure EndFlags where
  Command : String
  taskname : String

/-- Embeds var _End. -/
def _End : EndFlags := { Command := "/END", taskname := "/TN" }

/-- Field layout of the Go anonymous struct held in var _ShowSid. -/
structure ShowSidFlags where
  Command : String
  taskname : String

/-- Embeds var _ShowSid. -/
def _ShowSid : ShowSidFlags := { Command := "/SHOWSID", taskname := "/TN" }

/-- Embeds func New of src/tasker.go. -/
def New (com : Bool) : SchTask :=
  { bin := taskerFile, pfx := "go-wintask-", compatibility := com }

/-- Embeds func (task SchTask) TaskMake of src/tasker.go lines 399-545:
builds the argument vector for /CREATE and /CHANGE, one append per source
statement.  getCurrDir and getCurrExe are read from the environment as
exePath; the Debug-guarded fmt.Println does not affect the result. -/
def SchTask.TaskMake (task : SchTask) (env : Env) (taskcreate : TaskCreate)
    (command : String) (own : Bool) : List String :=
  let cmds : List String := []
  let cmds := cmds ++ [command]
  let cmds := if taskcreate.Username ≠ "" then cmds ++ [_Create.username, taskcreate.Username] else cmds
  let cmds := if taskcreate.Password ≠ "" then cmds ++ [_Create.password, taskcreate.Password] else cmds
  let cmds := if taskcreate.Schedule ≠ "" then cmds ++ [_Create.schedule, taskcreate.Schedule] else cmds
  let cmds := if taskcreate.Modifier ≠ "" then cmds ++ [_Create.modifier, taskcreate.Modifier] else cmds
  let cmds :=
    if 0 < taskcreate.Days.length then
      let f := taskcreate.Days.foldl (fun acc d => acc ++ d ++ ",") ""
      let f := goTrimSuffix f ","
      if f ≠ "" then cmds ++ [_Create.days, f] else cmds
    else cmds
  let cmds :=
    if 0 < taskcreate.Months.length then
      let f := taskcreate.Months.foldl (fun acc d => acc ++ d ++ ",") ""
      let f := goTrimSuffix f ","
      if f ≠ "" then cmds ++ [_Create.months, f] else cmds
    else cmds
  let cmds := if taskcreate.Idletime ≠ "" then cmds ++ [_Create.idletime, taskcreate.Idletime] else cmds
  let cmds := if taskcreate.Starttime ≠ "" then cmds ++ [_Create.starttime, taskcreate.Starttime] else cmds
  let cmds := if taskcreate.Interval ≠ "" then cmds ++ [_Create.interval, taskcreate.Interval] else cmds
  let cmds := if taskcreate.Endtime ≠ "" then cmds ++ [_Create.endtime, taskcreate.Endtime] else cmds
  let cmds := if taskcreate.Duration ≠ "" then cmds ++ [_Create.duration, taskcreate.Duration] else cmds
  let cmds := if taskcreate.Terminate then cmds ++ [_Create.terminate] else cmds
  let cmds := if taskcreate.Startdate ≠ "" then cmds ++ [_Create.startdate, taskcreate.Startdate] else cmds
  let cmds := if taskcreate.Enddate ≠ "" then cmds ++ [_Create.enddate, taskcreate.Enddate] else cmds
  let cmds := if taskcreate.ChannelName ≠ "" then cmds ++ [_Create.channelName, taskcreate.ChannelName] else cmds
  let cmds := if taskcreate.NoPassword then cmds ++ [_Create.noPassword] else cmds
  let cmds := if taskcreate.Force then cmds ++ [_Create.force] else cmds
  let cmds := if taskcreate.Level ≠ "" then cmds ++ [_Create.level, taskcreate.Level] else cmds
  let cmds := if taskcreate.Delaytime ≠ "" then cmds ++ [_Create.delaytime, taskcreate.Delaytime] else cmds
  let name := taskcreate.Taskname
  let name := if own then task.pfx ++ name else name
  let cmds := cmds ++ [_Create.taskname, name]
  let run := taskcreate.Taskrun
  let run := if run = "" then env.exePath else run
  let args := taskcreate.Arguments.foldl
    (fun acc arg => if arg.data.contains ' ' then acc ++ "\"" ++ arg ++ "\" " else acc ++ arg ++ " ") ""
  let run := "\"" ++ run ++ "\" " ++ goTrimSpace args
  let run := goTrimSpace run
  let cmds := cmds ++ [_Create.taskrun, run]
  let cmds := if taskcreate.MarkDelete then cmds ++ [_Create.preVista, _Create.markDelete] else cmds
  cmds

/-- Value of the /TN argument of TaskMake: the task name, prefixed when
own is set (src/tasker.go lines 509-515). -/
def taskNameArg (task : SchTask) (taskcreate : TaskCreate) (own : Bool) : String :=
  if own then task.pfx ++ taskcreate.Taskname else taskcreate.Taskname

/-- Value of the /TR argument of TaskMake (src/tasker.go lines 516-534):
the task run path, or the running executable when empty, quoted, then the
space-joined quoted argument list, trimmed. -/
def taskRunArg (env : Env) (taskcreate : TaskCreate) : String :=
  let run := taskcreate.Taskrun
  let run := if run = "" then env.exePath else run
  let args := taskcreate.Arguments.foldl
    (fun acc arg => if arg.data.contains ' ' then acc ++ "\"" ++ arg ++ "\" " else acc ++ arg ++ " ") ""
  let run := "\"" ++ run ++ "\" " ++ goTrimSpace args
  goTrimSpace run

/-- The /D flag-value segment of TaskMake (src/tasker.go lines 423-434). -/
def daysSegment (l : List String) : List String :=
  if 0 < l.length then
    let f := l.foldl (fun acc d => acc ++ d ++ ",") ""
    let f := goTrimSuffix f ","
    if f ≠ "" then [_Create.days, f] else []
  else []

/-- The /M flag-value segment of TaskMake (src/tasker.go lines 435-446). -/
def monthsSegment (l : List String) : List String :=
  if 0 < l.length then
    let f := l.foldl (fun acc d => acc ++ d ++ ",") ""
    let f := goTrimSuffix f ","
    if f ≠ "" then [_Create.months, f] else []
  else []

/-- Elements joined by single copies of a separator, as the specification
of the claims phrases it; no trailing separator. -/
def joinWith (sep : String) : List String → String
  | [] => ""
  | [a] => a
  | a :: b :: t => a ++ sep ++ joinWith sep (b :: t)

/-- An argument element as C10 describes it: wrapped in double quotes
exactly when it contains a space. -/
def quoteIfSpace (arg : String) : String :=
  if arg.data.contains ' ' then "\"" ++ arg ++ "\"" else arg

/-- The /TR value exactly as claim C10 states it: the quoted run path
followed by the arguments joined by single spaces. -/
def claimTRValue (env : Env) (taskcreate : TaskCreate) : String :=
  "\"" ++ (if taskcreate.Taskrun = "" then env.exePath else taskcreate.Taskrun) ++ "\"" ++
    (match taskcreate.Arguments with
     | [] => ""
     | _ => " " ++ joinWith " " (taskcreate.Arguments.map quoteIfSpace))

/-- The /TR value as claim C10 must be amended: the joined argument string
is white-space trimmed as a whole, and follows after a single space only
when non-empty. -/
def claimTRValueTrimmed (env : Env) (taskcreate : TaskCreate) : String :=
  let quoted := "\"" ++ (if taskcreate.Taskrun = "" then env.exePath else taskcreate.Taskrun) ++ "\""
  let tj := goTrimSpace (joinWith " " (taskcreate.Arguments.map quoteIfSpace))
  if tj = "" then quoted else quoted ++ " " ++ tj

/-- Right-hand sides of the comma-joining loops of TaskMake, in recursive
form: each element followed by one comma. -/
def catComma : List String → String
  | [] => ""
  | d :: t => d ++ "," ++ catComma t

/-- Right-hand side of the argument-joining loop of TaskMake, in recursive
form: each quoted element followed by one space. -/
def catSpace : List String → String
  | [] => ""
  | a :: t => quoteIfSpace a ++ " " ++ catSpace t

/-- Argument vector of the Query invocation (src/tasker.go lines 593-598):
CSV format, with the header suppressed outside compatibility mode. -/
def queryArgs (com : Bool) : List String :=
  if com then [_Query.Command, _Query.format, _Query.formatCSV]
  else [_Query.Command, _Query.format, _Query.formatCSV, _Query.noHeader]

/-- Effective filter name of Query (src/tasker.go lines 603-609): with own
set, the asterisk is dropped and the namespace string is prepended. -/
def queryEffName (task : SchTask) (name : String) (own : Bool) : String :=
  if own then task.pfx ++ (if name = "*" then "" else name) else name

/-- Line filter of the Query loop (src/tasker.go line 624): an asterisk or
empty filter passes everything, otherwise case-insensitive containment in
the trimmed first field. -/
def linePass (filter tname : String) : Bool :=
  filter == "*" || filter == "" || goContains (goToLower tname) (goToLower filter)

/-- One iteration of the Query scanning loop (src/tasker.go lines 612-629)
on one line: outer none is a panic (index out of range), some none a line
producing no record, some (some t) a parsed record. -/
def parseLine (com : Bool) (filter line : String) : Option (Option Task) :=
  let tx := stripQuotes line
  if com && goHasPrefix tx "TaskName" then some none
  else
    match goSplit tx ',' with
    | [] => none
    | t0 :: rest =>
      let tname := goTrimSpace t0
      if linePass filter tname then
        match rest with
        | t1 :: t2 :: _ => some (some ⟨tname, goTrimSpace t1, goTrimSpace t2⟩)
        | _ => none
      else some none

/-- The Query scanning loop over all lines, collecting records in order;
none when any iteration panics. -/
def queryLoop (com : Bool) (filter : String) : List String → Option (List Task)
  | [] => some []
  | line :: rest =>
    match parseLine com filter line with
    | none => none
    | some none => queryLoop com filter rest
    | some (some t) => (queryLoop com filter rest).map (t :: ·)

/-- Parsing of the full Query output: the scanner lines fed to the loop. -/
def parseQueryOutput (com : Bool) (filter output : String) : Option (List Task) :=
  queryLoop com filter (goLines output)

/-- The record one line contributes according to claim C3 as amended:
compatibility header lines are skipped, fields read totally. -/
def claimQueryRecord (com : Bool) (filter line : String) : Option Task :=
  let tx := stripQuotes line
  if com && goHasPrefix tx "TaskName" then none
  else
    let ts := goSplit tx ','
    let tname := goTrimSpace (ts.getD 0 "")
    if linePass filter tname then
      some ⟨tname, goTrimSpace (ts.getD 1 ""), goTrimSpace (ts.getD 2 "")⟩
    else none

/-- A line both surviving the compatibility-header skip and passing the
name filter, hence one whose second and third fields the loop reads. -/
def keepsLine (com : Bool) (filter line : String) : Bool :=
  let tx := stripQuotes line
  !(com && goHasPrefix tx "TaskName") &&
    linePass filter (goTrimSpace ((goSplit tx ',').getD 0 ""))

/-- Embeds func (task SchTask) Create of src/tasker.go lines 549-562:
TaskMake with /CREATE and own set, then one invocation unless Debug. -/
def SchTask.Create (task : SchTask) (env : Env) (taskcreate : TaskCreate) :
    List Invocation × String :=
  let cmds := task.TaskMake env taskcreate _Create.Command true
  if env.debug then ([], dbgMessage)
  else
    let cmd : Invocation := ⟨task.bin, cmds⟩
    ([cmd], env.run cmd)

/-- Embeds func (task SchTask) Delete of src/tasker.go lines 565-586. -/
def SchTask.Delete (task : SchTask) (env : Env) (taskname : String) (own force : Bool) :
    List Invocation × String :=
  if env.debug then ([], dbgMessage)
  else
    let taskname := if own then task.pfx ++ taskname else taskname
    let cmd : Invocation :=
      if !force then ⟨task.bin, [_Delete.Command, _Delete.taskname, taskname]⟩
      else ⟨task.bin, [_Delete.Command, _Delete.taskname, taskname, _Delete.force]⟩
    ([cmd], env.run cmd)

/-- Embeds func (task SchTask) Query of src/tasker.go lines 590-632: one
invocation always (Debug is not consulted), then the CSV parsing loop on
the combined output under the effective filter name. -/
def SchTask.Query (task : SchTask) (env : Env) (name : String) (own : Bool) :
    List Invocation × Option (List Task) :=
  let cmd : Invocation :=
    if task.compatibility then ⟨task.bin, [_Query.Command, _Query.format, _Query.formatCSV]⟩
    else ⟨task.bin, [_Query.Command, _Query.format, _Query.formatCSV, _Query.noHeader]⟩
  let output := env.run cmd
  let name := if own then task.pfx ++ (if name = "*" then "" else name) else name
  ([cmd], parseQueryOutput task.compatibility name output)

/-- Embeds func (task SchTask) Change of src/tasker.go lines 636-649. -/
def SchTask.Change (task : SchTask) (env : Env) (taskcreate : TaskCreate) (own : Bool) :
    List Invocation × String :=
  let cmds := task.TaskMake env taskcreate _Change.Command own
  if env.debug then ([], dbgMessage)
  else
    let cmd : Invocation := ⟨task.bin, cmds⟩
    ([cmd], env.run cmd)

/-- Embeds func (task SchTask) Run of src/tasker.go lines 652-667. -/
def SchTask.Run (task : SchTask) (env : Env) (taskName : String) (own : Bool) :
    List Invocation × String :=
  if env.debug then ([], dbgMessage)
  else
    let taskName := if own then task.pfx ++ taskName else taskName
    let cmd : Invocation := ⟨task.bin, [_Run.Command, _Run.taskname, taskName, _Run.immediate]⟩
    ([cmd], env.run cmd)

/-- Embeds func (task SchTask) End of src/tasker.go lines 670-685. -/
def SchTask.End (task : SchTask) (env : Env) (taskName : String) (own : Bool) :
    List Invocation × String :=
  if env.debug then ([], dbgMessage)
  else
    let taskName := if own then task.pfx ++ taskName else taskName
    let cmd : Invocation := ⟨task.bin, [_End.Command, _End.taskname, taskName]⟩
    ([cmd], env.run cmd)

/-- Embeds func (task SchTask) ShowSid of src/tasker.go lines 688-704: a
backslash is prepended to the possibly prefixed name. -/
def SchTask.ShowSid (task : SchTask) (env : Env) (taskName : String) (own : Bool) :
    List Invocation × String :=
  if env.debug then ([], dbgMessage)
  else
    let taskName := if own then task.pfx ++ taskName else taskName
    let taskName := "\\" ++ taskName
    let cmd : Invocation := ⟨task.bin, [_ShowSid.Command, _ShowSid.taskname, taskName]⟩
    ([cmd], env.run cmd)

/-- Embeds func (task SchTask) ShowHelp of src/tasker.go lines 707-714:
one invocation always, Debug not consulted. -/
def SchTask.ShowHelp (task : SchTask) (env : Env) (command : String) :
    List Invocation × String :=
  let cmd : Invocation := ⟨task.bin, [command, "/?"]⟩
  ([cmd], env.run cmd)

/-- Concrete environment for witnesses: no debugging, empty outputs. -/
def envA : Env := { exePath := "C:\\tools\\app.exe", debug := false, run := fun _ => "" }

/-- Second concrete environment, differing from envA in the executable
path, for the determinism witness. -/
def envB : Env := { exePath := "D:\\other\\cli.exe", debug := false, run := fun _ => "" }

/-- Concrete environment with the Debug flag set. -/
def envDbg : Env := { exePath := "C:\\tools\\app.exe", debug := true, run := fun _ => "" }

/-- Concrete environment whose query output holds one namespaced and one
foreign task line. -/
def envQ : Env :=
  { exePath := "C:\\tools\\app.exe", debug := false,
    run := fun _ => "\"go-wintask-job\",\"02/01/2026 10:00:00\",\"Ready\"\r\nOtherTask,N/A,Disabled" }

/-- Concrete configuration for witnesses: name and run path only. -/
def tcBasic : TaskCreate := { Taskname := "job", Taskrun := "notepad.exe" }

/-- Concrete configuration whose Days list is the single empty string, the
counterexample input of C6. -/
def tcDays : TaskCreate := { Taskname := "t", Taskrun := "x", Days := [""] }

/-- Concrete configuration whose argument list starts with an empty
string, the counterexample input of C10. -/
def tcArgs : TaskCreate := { Taskname := "t", Taskrun := "x", Arguments := ["", "a"] }

/-- Concrete environment whose query output is one line that starts with
the header word TaskName. -/
def envH : Env := { exePath := "C:\\tools\\app.exe", debug := false, run := fun _ => "TaskName,b,c" }

/-- Concrete environment whose query output is one line with a single
comma-separated field. -/
def envX : Env := { exePath := "C:\\tools\\app.exe", debug := false, run := fun _ => "x" }

/-- Argument-vector part of TaskMake before the /D segment. -/
def preDaysArgs (tc : TaskCreate) (command : String) : List String :=
  [command]
  ++ (if tc.Username ≠ "" then [_Create.username, tc.Username] else [])
  ++ (if tc.Password ≠ "" then [_Create.password, tc.Password] else [])
  ++ (if tc.Schedule ≠ "" then [_Create.schedule, tc.Schedule] else [])
  ++ (if tc.Modifier ≠ "" then [_Create.modifier, tc.Modifier] else [])

/-- Argument-vector part of TaskMake after the /M segment. -/
def postMonthsArgs (task : SchTask) (env : Env) (tc : TaskCreate) (own : Bool) : List String :=
  (if tc.Idletime ≠ "" then [_Create.idletime, tc.Idletime] else [])
  ++ (if tc.Starttime ≠ "" then [_Create.starttime, tc.Starttime] else [])
  ++ (if tc.Interval ≠ "" then [_Create.interval, tc.Interval] else [])
  ++ (if tc.Endtime ≠ "" then [_Create.endtime, tc.Endtime] else [])
  ++ (if tc.Duration ≠ "" then [_Create.duration, tc.Duration] else [])
  ++ (if tc.Terminate then [_Create.terminate] else [])
  ++ (if tc.Startdate ≠ "" then [_Create.startdate, tc.Startdate] else [])
  ++ (if tc.Enddate ≠ "" then [_Create.enddate, tc.Enddate] else [])
  ++ (if tc.ChannelName ≠ "" then [_Create.channelName, tc.ChannelName] else [])
  ++ (if tc.NoPassword then [_Create.noPassword] else [])
  ++ (if tc.Force then [_Create.force] else [])
  ++ (if tc.Level ≠ "" then [_Create.level, tc.Level] else [])
  ++ (if tc.Delaytime ≠ "" then [_Create.delaytime, tc.Delaytime] else [])
  ++ [_Create.taskname, taskNameArg task tc own]
  ++ [_Create.taskrun, taskRunArg env tc]
  ++ (if tc.MarkDelete then [_Create.preVista, _Create.markDelete] else [])

/-- Strings are equal when their character lists are. -/
theorem sext {a b : String} (h : a.data = b.data) : a = b := by
  cases a
  cases b
  exact congrArg String.mk h

/-- Character list of an appended string. -/
theorem sdata_append (a b : String) : (a ++ b).data = a.data ++ b.data := rfl

/-- Character list of the empty string. -/
theorem sdata_empty : ("" : String).data = [] := rfl

/-- String append is associative. -/
theorem sapp_assoc (a b c : String) : a ++ b ++ c = a ++ (b ++ c) :=
  sext (by simp [sdata_append])

/-- The empty string is a right identity of append. -/
theorem sapp_empty (a : String) : a ++ "" = a :=
  sext (by simp [sdata_append, sdata_empty])

/-- The empty string is a left identity of append. -/
theorem sempty_app (a : String) : "" ++ a = a :=
  sext (by simp [sdata_append, sdata_empty])

/-- A string with empty character list is the empty string. -/
theorem eq_empty_of_data {a : String} (h : a.data = []) : a = "" :=
  sext (by simp [h, sdata_empty])

/-- Appending to the accumulator distributes over each TaskMake comma
joining loop. -/
theorem foldl_comma (l : List String) :
    ∀ acc : String, l.foldl (fun acc d => acc ++ d ++ ",") acc = acc ++ catComma l := by
  induction l with
  | nil => intro acc; simp [catComma, sapp_empty]
  | cons a t ih =>
    intro acc
    simp only [List.foldl_cons, catComma, ih (acc ++ a ++ ",")]
    simp [sapp_assoc]

/-- The comma joining loop produces the comma join plus one trailing
comma. -/
theorem catComma_eq (a : String) (t : List String) :
    catComma (a :: t) = joinWith "," (a :: t) ++ "," := by
  induction t generalizing a with
  | nil => simp [catComma, joinWith, sapp_empty]
  | cons b t2 ih =>
    have h1 : catComma (a :: b :: t2) = a ++ "," ++ catComma (b :: t2) := rfl
    have h2 : joinWith "," (a :: b :: t2) = a ++ "," ++ joinWith "," (b :: t2) := rfl
    rw [h1, ih b, h2, ← sapp_assoc]

/-- TrimSuffix removes exactly the trailing comma the joining loop left. -/
theorem trimSuffix_comma (j : String) : goTrimSuffix (j ++ ",") "," = j := by
  unfold goTrimSuffix
  have hs : (("," : String)).data.isSuffixOf ((j ++ ",").data) = true := by
    rw [sdata_append]
    simp [List.isSuffixOf, List.isPrefixOf]
  rw [if_pos hs]
  apply sext
  rw [sdata_append]
  have hlen : (j.data ++ (",").data).length - (("," : String)).data.length = j.data.length := by
    simp
  rw [hlen]
  exact List.take_left j.data _

/-- The trimmed comma join of a non-empty list is its comma join. -/
theorem trimFold (a : String) (t : List String) :
    goTrimSuffix ((a :: t).foldl (fun acc d => acc ++ d ++ ",") "") "," =
      joinWith "," (a :: t) := by
  rw [foldl_comma, sempty_app, catComma_eq, trimSuffix_comma]

/-- A conditional append to a left factor splits off a conditional
segment. -/
theorem ite_app (c : Prop) [Decidable c] (A X : List String) :
    (if c then A ++ X else A) = A ++ (if c then X else []) := by
  split <;> simp

/-- The /D segment of TaskMake holds the comma join of Days exactly when
the list and the join are non-empty. -/
theorem daysSegment_eq (l : List String) :
    daysSegment l =
      if l ≠ [] ∧ joinWith "," l ≠ "" then [_Create.days, joinWith "," l] else [] := by
  cases l with
  | nil => simp [daysSegment]
  | cons a t =>
    have hj := trimFold a t
    simp only [daysSegment]
    rw [hj]
    simp

/-- The /M segment of TaskMake holds the comma join of Months exactly when
the list and the join are non-empty. -/
theorem monthsSegment_eq (l : List String) :
    monthsSegment l =
      if l ≠ [] ∧ joinWith "," l ≠ "" then [_Create.months, joinWith "," l] else [] := by
  cases l with
  | nil => simp [monthsSegment]
  | cons a t =>
    have hj := trimFold a t
    simp only [monthsSegment]
    rw [hj]
    simp

/-- Structure of the TaskMake result: the sub-command, one conditional
segment per configuration field in source order, the /TN and /TR pairs,
and the trailing /V1 /Z pair. -/
theorem taskMake_unfold (task : SchTask) (env : Env) (tc : TaskCreate)
    (command : String) (own : Bool) :
    task.TaskMake env tc command own =
      [command]
      ++ (if tc.Username ≠ "" then [_Create.username, tc.Username] else [])
      ++ (if tc.Password ≠ "" then [_Create.password, tc.Password] else [])
      ++ (if tc.Schedule ≠ "" then [_Create.schedule, tc.Schedule] else [])
      ++ (if tc.Modifier ≠ "" then [_Create.modifier, tc.Modifier] else [])
      ++ daysSegment tc.Days
      ++ monthsSegment tc.Months
      ++ (if tc.Idletime ≠ "" then [_Create.idletime, tc.Idletime] else [])
      ++ (if tc.Starttime ≠ "" then [_Create.starttime, tc.Starttime] else [])
      ++ (if tc.Interval ≠ "" then [_Create.interval, tc.Interval] else [])
      ++ (if tc.Endtime ≠ "" then [_Create.endtime, tc.Endtime] else [])
      ++ (if tc.Duration ≠ "" then [_Create.duration, tc.Duration] else [])
      ++ (if tc.Terminate then [_Create.terminate] else [])
      ++ (if tc.Startdate ≠ "" then [_Create.startdate, tc.Startdate] else [])
      ++ (if tc.Enddate ≠ "" then [_Create.enddate, tc.Enddate] else [])
      ++ (if tc.ChannelName ≠ "" then [_Create.channelName, tc.ChannelName] else [])
      ++ (if tc.NoPassword then [_Create.noPassword] else [])
      ++ (if tc.Force then [_Create.force] else [])
      ++ (if tc.Level ≠ "" then [_Create.level, tc.Level] else [])
      ++ (if tc.Delaytime ≠ "" then [_Create.delaytime, tc.Delaytime] else [])
      ++ [_Create.taskname, taskNameArg task tc own]
      ++ [_Create.taskrun, taskRunArg env tc]
      ++ (if tc.MarkDelete then [_Create.preVista, _Create.markDelete] else []) := by
  simp only [SchTask.TaskMake]
  simp only [ite_app]
  simp only [taskNameArg, taskRunArg, daysSegment, monthsSegment, List.append_assoc,
    List.nil_append]

/-- Character list of the one-quote string literal. -/
theorem dq_data : ("\"" : String).data = ['"'] := rfl

/-- Character list of the quote-space string literal. -/
theorem dqsp_data : ("\" " : String).data = ['"', ' '] := rfl

/-- Character list of the one-space string literal. -/
theorem sp_data : (" " : String).data = [' '] := rfl

/-- The first character surviving dropWhile fails the predicate. -/
theorem head_dropWhile_false (p : Char → Bool) :
    ∀ (l : List Char) (c : Char), (l.dropWhile p).head? = some c → p c = false := by
  intro l
  induction l with
  | nil => intro c h; simp [List.dropWhile] at h
  | cons a t ih =>
    intro c h
    rw [List.dropWhile_cons] at h
    by_cases hp : p a = true
    · rw [if_pos hp] at h
      exact ih c h
    · rw [if_neg hp] at h
      simp at h
      rw [← h]
      simpa using hp

/-- A trailing space does not change the right trim. -/
theorem trimR_append_space (d : List Char) : trimR (d ++ [' ']) = trimR d := by
  have hsp : isGoSpace ' ' = true := by decide
  unfold trimR
  rw [List.reverse_append]
  simp [List.dropWhile_cons, hsp]

/-- A trailing space does not change TrimSpace. -/
theorem trim_append_space (s : String) : goTrimSpace (s ++ " ") = goTrimSpace s := by
  apply sext
  show trimL (trimR ((s ++ " ").data)) = trimL (trimR s.data)
  have hd : (s ++ " ").data = s.data ++ [' '] := rfl
  rw [hd, trimR_append_space]

/-- A list whose last character is not white space is right-trim
invariant. -/
theorem trimR_no_trailing {d : List Char} {c : Char} (hc : d.getLast? = some c)
    (hcf : isGoSpace c = false) : trimR d = d := by
  unfold trimR
  have hrev : d.reverse.head? = some c := by rw [List.head?_reverse]; exact hc
  cases hr : d.reverse with
  | nil => rw [hr] at hrev; simp at hrev
  | cons x t =>
    rw [hr] at hrev
    have hxc : x = c := by simpa using hrev
    subst hxc
    have hnot : ¬ (isGoSpace x = true) := by rw [hcf]; simp
    rw [List.dropWhile_cons, if_neg hnot, ← hr, List.reverse_reverse]

/-- The argument-quoting loop of TaskMake distributes over the
accumulator. -/
theorem argsFold_eq (l : List String) :
    ∀ acc : String,
      l.foldl
        (fun acc arg =>
          if arg.data.contains ' ' then acc ++ "\"" ++ arg ++ "\" " else acc ++ arg ++ " ")
        acc = acc ++ catSpace l := by
  induction l with
  | nil => intro acc; simp [catSpace, sapp_empty]
  | cons a t ih =>
    intro acc
    have hstep : (if a.data.contains ' ' then acc ++ "\"" ++ a ++ "\" " else acc ++ a ++ " ")
        = acc ++ (quoteIfSpace a ++ " ") := by
      unfold quoteIfSpace
      split
      · apply sext
        simp [sdata_append, dq_data, dqsp_data, sp_data]
      · apply sext
        simp [sdata_append, sp_data]
    rw [List.foldl_cons, hstep, ih (acc ++ (quoteIfSpace a ++ " "))]
    have hcs : catSpace (a :: t) = quoteIfSpace a ++ " " ++ catSpace t := rfl
    rw [hcs]
    apply sext
    simp [sdata_append]

/-- The argument-quoting loop produces the space join plus one trailing
space. -/
theorem catSpace_eq (a : String) (t : List String) :
    catSpace (a :: t) = joinWith " " ((a :: t).map quoteIfSpace) ++ " " := by
  induction t generalizing a with
  | nil =>
    have h1 : catSpace [a] = quoteIfSpace a ++ " " ++ "" := rfl
    have h2 : joinWith " " ([a].map quoteIfSpace) = quoteIfSpace a := rfl
    rw [h1, h2, sapp_empty]
  | cons b t2 ih =>
    have h1 : catSpace (a :: b :: t2) = quoteIfSpace a ++ " " ++ catSpace (b :: t2) := rfl
    have h2 : joinWith " " ((a :: b :: t2).map quoteIfSpace)
        = quoteIfSpace a ++ " " ++ joinWith " " ((b :: t2).map quoteIfSpace) := rfl
    rw [h1, ih b, h2, ← sapp_assoc]

/-- TrimSpace of a quoted string with one trailing space is the quoted
string. -/
theorem quoted_trim (r : String) : goTrimSpace ("\"" ++ r ++ "\" ") = "\"" ++ r ++ "\"" := by
  apply sext
  show trimL (trimR (("\"" ++ r ++ "\" ").data)) = ("\"" ++ r ++ "\"").data
  have hd : ("\"" ++ r ++ "\" ").data = (('"' :: r.data) ++ ['"']) ++ [' '] := by
    simp [sdata_append, dq_data, dqsp_data]
  rw [hd, trimR_append_space]
  have hlast : (('"' :: r.data) ++ ['"']).getLast? = some '"' :=
    (List.getLast?_append_of_ne_nil _ (by simp)).trans rfl
  rw [trimR_no_trailing hlast (by decide)]
  have hcons : ('"' :: r.data) ++ ['"'] = '"' :: (r.data ++ ['"']) := by simp
  rw [hcons]
  unfold trimL
  rw [List.dropWhile_cons, if_neg (by decide)]
  simp [sdata_append, dq_data]

/-- A non-empty TrimSpace result ends in a character that is not white
space. -/
theorem trim_last_not_space (w : String) (h : goTrimSpace w ≠ "") :
    ∃ c, (goTrimSpace w).data.getLast? = some c ∧ isGoSpace c = false := by
  have hdata : (goTrimSpace w).data = trimL (trimR w.data) := rfl
  cases hv : (w.data.reverse.dropWhile isGoSpace).head? with
  | none =>
    exfalso
    have hnil : w.data.reverse.dropWhile isGoSpace = [] := by
      cases hdw : w.data.reverse.dropWhile isGoSpace with
      | nil => rfl
      | cons a t => rw [hdw] at hv; simp at hv
    apply h
    apply eq_empty_of_data
    rw [hdata]
    show trimL (trimR w.data) = []
    unfold trimR
    rw [hnil]
    rfl
  | some c =>
    have hcf : isGoSpace c = false := head_dropWhile_false _ _ _ hv
    have hylast : (trimR w.data).getLast? = some c := by
      unfold trimR
      rw [List.getLast?_reverse]
      exact hv
    have hmem : c ∈ trimR w.data := by
      have hx : c ∈ (trimR w.data).getLast? := by rw [hylast]; rfl
      obtain ⟨hne, hc⟩ := List.mem_getLast?_eq_getLast hx
      rw [hc]
      exact List.getLast_mem hne
    have htl : trimL (trimR w.data) ≠ [] := by
      intro hnil
      have hall := List.dropWhile_eq_nil_iff.mp hnil
      have := hall c hmem
      rw [hcf] at this
      exact absurd this (by simp)
    have hsuf : trimL (trimR w.data) <:+ trimR w.data := List.dropWhile_suffix isGoSpace
    obtain ⟨u, hu⟩ := hsuf
    refine ⟨c, ?_, hcf⟩
    rw [hdata]
    have happ := List.getLast?_append_of_ne_nil u htl
    rw [hu] at happ
    rw [← happ]
    exact hylast

/-- Character list of TrimSpace. -/
theorem goTrimSpace_data (s : String) : (goTrimSpace s).data = trimL (trimR s.data) := rfl

/-- A list whose first character is not white space is left-trim
invariant. -/
theorem trimL_of_head {l : List Char} {x : Char} (h : l.head? = some x)
    (hx : isGoSpace x = false) : trimL l = l := by
  cases l with
  | nil => simp at h
  | cons a t =>
    have hax : a = x := by simpa using h
    subst hax
    unfold trimL
    rw [List.dropWhile_cons, if_neg (by rw [hx]; simp)]

/-- The /TR value of TaskMake equals the amended description of claim
C10: quoted run path, then after one space the white-space trim of the
space join of the quoted arguments, when that trim is non-empty. -/
theorem taskRunArg_eq (env : Env) (tc : TaskCreate) :
    taskRunArg env tc = claimTRValueTrimmed env tc := by
  simp only [taskRunArg, claimTRValueTrimmed]
  cases hl : tc.Arguments with
  | nil =>
    have h0 : goTrimSpace "" = "" := rfl
    have hf : List.foldl
        (fun acc arg =>
          if arg.data.contains ' ' then acc ++ "\"" ++ arg ++ "\" " else acc ++ arg ++ " ")
        "" ([] : List String) = "" := rfl
    rw [hf, h0, sapp_empty, quoted_trim]
    have hj : joinWith " " (([] : List String).map quoteIfSpace) = "" := rfl
    rw [hj, h0, if_pos rfl]
  | cons a t =>
    rw [argsFold_eq (a :: t) "", sempty_app, catSpace_eq, trim_append_space]
    set r := if tc.Taskrun = "" then env.exePath else tc.Taskrun with hrdef
    set tj := goTrimSpace (joinWith " " ((a :: t).map quoteIfSpace)) with htjdef
    by_cases htj : tj = ""
    · rw [htj, sapp_empty, quoted_trim, if_pos rfl]
    · rw [if_neg htj]
      obtain ⟨c, hlast, hcf⟩ :=
        trim_last_not_space (joinWith " " ((a :: t).map quoteIfSpace))
          (by rw [← htjdef]; exact htj)
      apply sext
      have hdeq : ("\"" ++ r ++ "\" " ++ tj).data = ("\"" ++ r ++ "\"" ++ " " ++ tj).data := by
        simp [sdata_append, dq_data, dqsp_data, sp_data]
      rw [goTrimSpace_data, hdeq]
      have htjd : tj.data ≠ [] := fun hh => htj (eq_empty_of_data hh)
      have hDlast : (("\"" ++ r ++ "\"" ++ " " ++ tj).data).getLast? = some c := by
        rw [sdata_append, List.getLast?_append_of_ne_nil _ htjd]
        exact hlast
      rw [trimR_no_trailing hDlast hcf]
      have hDhead : (("\"" ++ r ++ "\"" ++ " " ++ tj).data).head? = some '"' := rfl
      rw [trimL_of_head hDhead (by decide)]

/-- Split of a character list is never the empty list of fields. -/
theorem splitChar_ne_nil (sep : Char) : ∀ l, splitChar sep l ≠ [] := by
  intro l
  induction l with
  | nil => simp [splitChar]
  | cons c rest ih =>
    unfold splitChar
    split
    · simp
    · cases hh : splitChar sep rest with
      | nil => exact absurd hh ih
      | cons h t => simp

/-- Split of a string is never the empty list of fields, so the read of
the first field in the Query loop is total. -/
theorem goSplit_ne_nil (s : String) (sep : Char) : goSplit s sep ≠ [] := by
  unfold goSplit
  simp [splitChar_ne_nil]

/-- One Query loop iteration agrees with the amended per-line record of
claim C3 on every line whose second and third fields exist when read. -/
theorem parseLine_eq (com : Bool) (filter line : String)
    (h : keepsLine com filter line = true → 3 ≤ (goSplit (stripQuotes line) ',').length) :
    parseLine com filter line = some (claimQueryRecord com filter line) := by
  by_cases hskip : (com && goHasPrefix (stripQuotes line) "TaskName") = true
  · unfold parseLine claimQueryRecord
    rw [if_pos hskip, if_pos hskip]
  · cases hts : goSplit (stripQuotes line) ',' with
    | nil => exact absurd hts (goSplit_ne_nil _ _)
    | cons t0 rest =>
      have hL : parseLine com filter line =
          if linePass filter (goTrimSpace t0) = true then
            (match rest with
             | t1 :: t2 :: _ =>
               some (some ⟨goTrimSpace t0, goTrimSpace t1, goTrimSpace t2⟩)
             | _ => none)
          else some none := by
        unfold parseLine
        rw [if_neg hskip, hts]
      have hR : claimQueryRecord com filter line =
          if linePass filter (goTrimSpace t0) = true then
            some ⟨goTrimSpace t0, goTrimSpace ((t0 :: rest).getD 1 ""),
              goTrimSpace ((t0 :: rest).getD 2 "")⟩
          else none := by
        unfold claimQueryRecord
        rw [if_neg hskip, hts]
        rfl
      have hskipf : (com && goHasPrefix (stripQuotes line) "TaskName") = false := by
        simpa using hskip
      have hkeq : keepsLine com filter line = linePass filter (goTrimSpace t0) := by
        simp only [keepsLine]
        rw [hts, hskipf]
        simp
      by_cases hpass : linePass filter (goTrimSpace t0) = true
      · have h3 : 3 ≤ (t0 :: rest).length := by
          have hh := h (by rw [hkeq]; exact hpass)
          rwa [hts] at hh
        rw [hL, hR, if_pos hpass, if_pos hpass]
        cases rest with
        | nil => simp at h3
        | cons t1 r2 =>
          cases r2 with
          | nil => simp at h3
          | cons t2 r3 => simp [List.getD_cons_succ, List.getD_cons_zero]
      · rw [hL, hR, if_neg hpass, if_neg hpass]

/-- The Query loop over well-formed lines succeeds and collects exactly
the per-line records. -/
theorem queryLoop_eq (com : Bool) (filter : String) (lines : List String)
    (h : ∀ line ∈ lines, keepsLine com filter line = true →
      3 ≤ (goSplit (stripQuotes line) ',').length) :
    queryLoop com filter lines = some (lines.filterMap (claimQueryRecord com filter)) := by
  induction lines with
  | nil => rfl
  | cons a t ih =>
    have ha := parseLine_eq com filter a (h a (by simp))
    have ht := ih (fun l hl hk => h l (by simp [hl]) hk)
    unfold queryLoop
    rw [ha]
    cases hr : claimQueryRecord com filter a <;> simp [List.filterMap_cons, hr, ht]

/-- The parsed component of Query is the parse of the output of its one
invocation under the effective filter name. -/
theorem query_snd (task : SchTask) (env : Env) (name : String) (own : Bool) :
    (task.Query env name own).2 =
      parseQueryOutput task.compatibility (queryEffName task name own)
        (env.run ⟨task.bin, queryArgs task.compatibility⟩) := by
  unfold SchTask.Query queryEffName queryArgs
  cases hc : task.compatibility <;> simp [hc]

/-- The invocation component of Query is its one invocation. -/
theorem query_fst (task : SchTask) (env : Env) (name : String) (own : Bool) :
    (task.Query env name own).1 = [⟨task.bin, queryArgs task.compatibility⟩] := by
  unfold SchTask.Query queryArgs
  cases hc : task.compatibility <;> simp [hc]

/-- A contiguous segment of a list is a segment of any left extension. -/
theorem segment_in_append {l t : List String} (s : List String) (h : l <:+: t) :
    l <:+: s ++ t := by
  obtain ⟨x, y, hxy⟩ := h
  exact ⟨s ++ x, y, by rw [← hxy]; simp [List.append_assoc]⟩

/-- A list is a contiguous segment of itself followed by anything. -/
theorem segment_self_append (l r : List String) : l <:+: l ++ r := ⟨[], r, by simp⟩

/-- Claim C1: for every configuration, sub-command and own flag, the
TaskMake argument vector starts with the sub-command, holds one
flag-value pair per optional string field exactly when that field is
non-empty, in the fixed source order /RU /RP /SC /MO (/D /M) /I /ST /RI
/ET /DU /SD /ED /EC /RL /DELAY, one bare flag per set boolean (/K, /NP,
/F), always the /TN and /TR pairs, and /V1 /Z appended last when
MarkDelete is set. -/
theorem taskMake_argument_structure (task : SchTask) (env : Env) (tc : TaskCreate)
    (command : String) (own : Bool) :
    task.TaskMake env tc command own =
      [command]
      ++ (if tc.Username ≠ "" then ["/RU", tc.Username] else [])
      ++ (if tc.Password ≠ "" then ["/RP", tc.Password] else [])
      ++ (if tc.Schedule ≠ "" then ["/SC", tc.Schedule] else [])
      ++ (if tc.Modifier ≠ "" then ["/MO", tc.Modifier] else [])
      ++ daysSegment tc.Days
      ++ monthsSegment tc.Months
      ++ (if tc.Idletime ≠ "" then ["/I", tc.Idletime] else [])
      ++ (if tc.Starttime ≠ "" then ["/ST", tc.Starttime] else [])
      ++ (if tc.Interval ≠ "" then ["/RI", tc.Interval] else [])
      ++ (if tc.Endtime ≠ "" then ["/ET", tc.Endtime] else [])
      ++ (if tc.Duration ≠ "" then ["/DU", tc.Duration] else [])
      ++ (if tc.Terminate then ["/K"] else [])
      ++ (if tc.Startdate ≠ "" then ["/SD", tc.Startdate] else [])
      ++ (if tc.Enddate ≠ "" then ["/ED", tc.Enddate] else [])
      ++ (if tc.ChannelName ≠ "" then ["/EC", tc.ChannelName] else [])
      ++ (if tc.NoPassword then ["/NP"] else [])
      ++ (if tc.Force then ["/F"] else [])
      ++ (if tc.Level ≠ "" then ["/RL", tc.Level] else [])
      ++ (if tc.Delaytime ≠ "" then ["/DELAY", tc.Delaytime] else [])
      ++ ["/TN", taskNameArg task tc own]
      ++ ["/TR", taskRunArg env tc]
      ++ (if tc.MarkDelete then ["/V1", "/Z"] else []) := by
  rw [taskMake_unfold]
  simp [_Create]

/-- Claim C2 counterexample: Query with own set places no task name in
its argument vector at all; the vector is the fixed query form and does
not hold the prefixed name. -/
theorem query_taskname_counterexample :
    ((New false).Query envA "x" true).1 = [⟨"SCHTASKS", ["/QUERY", "/FO", "CSV", "/NH"]⟩]
    ∧ ("go-wintask-x" : String) ∉ ["/QUERY", "/FO", "CSV", "/NH"] := by
  exact ⟨by decide, by decide⟩

/-- Claim C2 as amended: for Delete, Change, Run, End and ShowSid called
with own set, and unconditionally for Create, the task name placed in the
argument vector is the fixed namespace string prepended to the supplied
name, ShowSid additionally prepending a backslash; Query passes no task
name on its command line. -/
theorem own_prefixed_tasknames (com : Bool) (env : Env) (name command : String)
    (tc : TaskCreate) (force : Bool) (h : env.debug = false) :
    ((New com).Create env tc).1 = [⟨"SCHTASKS", (New com).TaskMake env tc "/CREATE" true⟩]
    ∧ ((New com).Change env tc true).1 = [⟨"SCHTASKS", (New com).TaskMake env tc "/CHANGE" true⟩]
    ∧ ["/TN", "go-wintask-" ++ tc.Taskname] <:+: (New com).TaskMake env tc command true
    ∧ ((New com).Delete env name true force).1 =
        [⟨"SCHTASKS", ["/DELETE", "/TN", "go-wintask-" ++ name] ++ if force then ["/F"] else []⟩]
    ∧ ((New com).Run env name true).1 =
        [⟨"SCHTASKS", ["/RUN", "/TN", "go-wintask-" ++ name, "/I"]⟩]
    ∧ ((New com).End env name true).1 = [⟨"SCHTASKS", ["/END", "/TN", "go-wintask-" ++ name]⟩]
    ∧ ((New com).ShowSid env name true).1 =
        [⟨"SCHTASKS", ["/SHOWSID", "/TN", "\\" ++ ("go-wintask-" ++ name)]⟩] := by
  refine ⟨?_, ?_, ?_, ?_, ?_, ?_, ?_⟩
  · simp [SchTask.Create, h, New, taskerFile, _Create]
  · simp [SchTask.Change, h, New, taskerFile, _Change]
  · have hname : taskNameArg (New com) tc true = "go-wintask-" ++ tc.Taskname := by
      simp [taskNameArg, New]
    rw [taskMake_unfold, ← hname, show _Create.taskname = "/TN" from rfl]
    simp only [List.append_assoc]
    repeat first | exact segment_self_append _ _ | apply segment_in_append
  · cases force <;> simp [SchTask.Delete, h, New, taskerFile, _Delete]
  · simp [SchTask.Run, h, New, taskerFile, _Run]
  · simp [SchTask.End, h, New, taskerFile, _End]
  · simp [SchTask.ShowSid, h, New, taskerFile, _ShowSid]

/-- Claim C2 witness at a concrete input. -/
theorem own_prefixed_tasknames_witness :
    envA.debug = false
    ∧ ((New false).Delete envA "job" true true).1 =
        [⟨"SCHTASKS", ["/DELETE", "/TN", "go-wintask-" ++ "job"] ++ if true then ["/F"] else []⟩] :=
  ⟨rfl, (own_prefixed_tasknames false envA "job" "/CHANGE" tcBasic true rfl).2.2.2.1⟩

/-- Claim C3 counterexample: with the header skipped in compatibility
mode a passing line contributes no record, and a malformed passing line
makes Query panic instead of returning records. -/
theorem query_records_counterexample :
    ((New true).Query envH "*" false).2 = some []
    ∧ ((New false).Query envX "*" false).2 = none := by
  exact ⟨by decide, by decide⟩

/-- Claim C3 as amended: on every output whose filter-passing lines all
have at least three comma-separated fields, Query returns one record per
line that passes the filter and is not a compatibility-mode header line,
with the trimmed first, second and third comma-separated fields of the
quote-stripped line; other lines contribute no record. -/
theorem query_parse_records (task : SchTask) (env : Env) (name : String) (own : Bool)
    (h : ∀ line ∈ goLines (env.run ⟨task.bin, queryArgs task.compatibility⟩),
      keepsLine task.compatibility (queryEffName task name own) line = true →
        3 ≤ (goSplit (stripQuotes line) ',').length) :
    (task.Query env name own).2 =
      some ((goLines (env.run ⟨task.bin, queryArgs task.compatibility⟩)).filterMap
        (claimQueryRecord task.compatibility (queryEffName task name own))) := by
  rw [query_snd]
  exact queryLoop_eq _ _ _ h

/-- Claim C3 witness at a concrete output. -/
theorem query_parse_records_witness :
    (∀ line ∈ goLines (envQ.run ⟨(New false).bin, queryArgs (New false).compatibility⟩),
      keepsLine (New false).compatibility (queryEffName (New false) "*" true) line = true →
        3 ≤ (goSplit (stripQuotes line) ',').length)
    ∧ ((New false).Query envQ "*" true).2 =
        some ((goLines (envQ.run ⟨(New false).bin, queryArgs (New false).compatibility⟩)).filterMap
          (claimQueryRecord (New false).compatibility (queryEffName (New false) "*" true))) :=
  ⟨by decide, query_parse_records (New false) envQ "*" true (by decide)⟩

/-- Claim C4 counterexample: a line with fewer than three comma-separated
fields that passes the filter causes the out-of-range access, modelled as
the panic value none. -/
theorem query_total_counterexample : parseQueryOutput false "*" "notasks" = none := by
  decide

/-- Claim C4 as amended: the parsing loop is total on outputs whose
filter-passing lines all have at least three comma-separated fields. -/
theorem query_parse_total_wellformed (com : Bool) (filter output : String)
    (h : ∀ line ∈ goLines output, keepsLine com filter line = true →
      3 ≤ (goSplit (stripQuotes line) ',').length) :
    (parseQueryOutput com filter output).isSome = true := by
  unfold parseQueryOutput
  rw [queryLoop_eq _ _ _ h]
  rfl

/-- Claim C4 witness at a concrete output. -/
theorem query_parse_total_wellformed_witness :
    (∀ line ∈ goLines "A,B,C", keepsLine false "*" line = true →
      3 ≤ (goSplit (stripQuotes line) ',').length)
    ∧ (parseQueryOutput false "*" "A,B,C").isSome = true :=
  ⟨by decide, query_parse_total_wellformed false "*" "A,B,C" (by decide)⟩

/-- Claim C5: with a non-empty Taskrun the TaskMake result does not
depend on the environment, in particular not on the path of the running
executable. -/
theorem taskMake_env_independent (task : SchTask) (env1 env2 : Env) (tc : TaskCreate)
    (command : String) (own : Bool) (h : tc.Taskrun ≠ "") :
    task.TaskMake env1 tc command own = task.TaskMake env2 tc command own := by
  simp only [SchTask.TaskMake, if_neg h]

/-- Claim C5 witness: two environments with different executable paths. -/
theorem taskMake_env_independent_witness :
    tcBasic.Taskrun ≠ ""
    ∧ (New false).TaskMake envA tcBasic "/CREATE" true =
        (New false).TaskMake envB tcBasic "/CREATE" true :=
  ⟨by decide, taskMake_env_independent (New false) envA envB tcBasic "/CREATE" true (by decide)⟩

/-- Claim C6 counterexample: a non-empty Days list whose comma join is
empty produces no /D flag at all. -/
theorem days_flag_counterexample :
    tcDays.Days ≠ [] ∧ "/D" ∉ (New false).TaskMake envA tcDays "/CREATE" true := by
  decide

/-- Claim C6 as amended: the /D (respectively /M) flag is followed by the
comma join of Days (Months) and is present exactly when the list and its
join are non-empty; a non-empty list whose join is empty, which is only
the single empty string, emits no flag. -/
theorem days_months_join_segments (task : SchTask) (env : Env) (tc : TaskCreate)
    (command : String) (own : Bool) :
    task.TaskMake env tc command own =
      preDaysArgs tc command ++ daysSegment tc.Days ++ monthsSegment tc.Months
        ++ postMonthsArgs task env tc own
    ∧ daysSegment tc.Days =
        (if tc.Days ≠ [] ∧ joinWith "," tc.Days ≠ ""
         then [_Create.days, joinWith "," tc.Days] else [])
    ∧ monthsSegment tc.Months =
        (if tc.Months ≠ [] ∧ joinWith "," tc.Months ≠ ""
         then [_Create.months, joinWith "," tc.Months] else []) := by
  refine ⟨?_, daysSegment_eq tc.Days, monthsSegment_eq tc.Months⟩
  rw [taskMake_unfold]
  simp [preDaysArgs, postMonthsArgs, List.append_assoc]

/-- Claim C7: every public operation issues at most one invocation of the
external binary per call; there is no retry. -/
theorem ops_invoke_at_most_once (com : Bool) (env : Env) (tc : TaskCreate)
    (name command : String) (own force : Bool) :
    ((New com).Create env tc).1.length ≤ 1
    ∧ ((New com).Delete env name own force).1.length ≤ 1
    ∧ ((New com).Query env name own).1.length ≤ 1
    ∧ ((New com).Change env tc own).1.length ≤ 1
    ∧ ((New com).Run env name own).1.length ≤ 1
    ∧ ((New com).End env name own).1.length ≤ 1
    ∧ ((New com).ShowSid env name own).1.length ≤ 1
    ∧ ((New com).ShowHelp env command).1.length ≤ 1 := by
  refine ⟨?_, ?_, ?_, ?_, ?_, ?_, ?_, ?_⟩ <;>
    cases hd : env.debug <;>
      simp [SchTask.Create, SchTask.Delete, SchTask.Query, SchTask.Change, SchTask.Run,
        SchTask.End, SchTask.ShowSid, SchTask.ShowHelp, hd]

/-- Claim C8: with the Debug flag set, Create, Delete, Change, Run, End
and ShowSid return the fixed debug message with no invocation, while
Query and ShowHelp always issue their one invocation. -/
theorem debug_mode_behavior (com : Bool) (env envAny : Env) (tc : TaskCreate)
    (name command : String) (own force : Bool) (h : env.debug = true) :
    (New com).Create env tc = ([], dbgMessage)
    ∧ (New com).Delete env name own force = ([], dbgMessage)
    ∧ (New com).Change env tc own = ([], dbgMessage)
    ∧ (New com).Run env name own = ([], dbgMessage)
    ∧ (New com).End env name own = ([], dbgMessage)
    ∧ (New com).ShowSid env name own = ([], dbgMessage)
    ∧ ((New com).Query envAny name own).1.length = 1
    ∧ ((New com).ShowHelp envAny command).1.length = 1 := by
  refine ⟨?_, ?_, ?_, ?_, ?_, ?_, ?_, ?_⟩ <;>
    simp [SchTask.Create, SchTask.Delete, SchTask.Change, SchTask.Run, SchTask.End,
      SchTask.ShowSid, SchTask.Query, SchTask.ShowHelp, h]

/-- Claim C8 witness with the Debug flag set. -/
theorem debug_mode_behavior_witness :
    envDbg.debug = true ∧ (New false).Create envDbg tcBasic = ([], dbgMessage) :=
  ⟨rfl, (debug_mode_behavior false envDbg envA tcBasic "job" "/CREATE" true false rfl).1⟩

/-- Claim C9: with own set, the asterisk filter becomes exactly the
namespace string, so only task names containing it case-insensitively
pass, not all tasks; any other name is filtered under the prefixed
name. -/
theorem query_own_star_filter (com : Bool) (env : Env) (name tname : String)
    (hn : name ≠ "*") :
    queryEffName (New com) "*" true = "go-wintask-"
    ∧ queryEffName (New com) name true = "go-wintask-" ++ name
    ∧ ((New com).Query env "*" true).2 =
        parseQueryOutput com "go-wintask-" (env.run ⟨"SCHTASKS", queryArgs com⟩)
    ∧ linePass "go-wintask-" tname = goContains (goToLower tname) (goToLower "go-wintask-")
    ∧ linePass "go-wintask-" "go-wintask-report" = true
    ∧ linePass "go-wintask-" "Firmware Update" = false := by
  have h1 : (("go-wintask-" : String) == "*") = false := by decide
  have h2 : (("go-wintask-" : String) == "") = false := by decide
  refine ⟨?_, ?_, ?_, ?_, by decide, by decide⟩
  · simp [queryEffName, New, sapp_empty]
  · simp [queryEffName, New, hn]
  · rw [query_snd]
    simp [queryEffName, New, taskerFile, sapp_empty]
  · simp [linePass, h1, h2]

/-- Claim C9 witness at a concrete non-asterisk name. -/
theorem query_own_star_filter_witness :
    ("abc" : String) ≠ "*"
    ∧ (queryEffName (New false) "*" true = "go-wintask-"
      ∧ queryEffName (New false) "abc" true = "go-wintask-" ++ "abc"
      ∧ ((New false).Query envA "*" true).2 =
          parseQueryOutput false "go-wintask-" (envA.run ⟨"SCHTASKS", queryArgs false⟩)
      ∧ linePass "go-wintask-" "go-wintask-x" =
          goContains (goToLower "go-wintask-x") (goToLower "go-wintask-")
      ∧ linePass "go-wintask-" "go-wintask-report" = true
      ∧ linePass "go-wintask-" "Firmware Update" = false) :=
  ⟨by decide, query_own_star_filter false envA "abc" "go-wintask-x" (by decide)⟩

/-- Claim C10 counterexample: with an empty first argument element the
value after /TR is not the claimed space join; the joined argument string
is trimmed as a whole first. -/
theorem taskrun_value_counterexample :
    taskRunArg envA tcArgs ≠ claimTRValue envA tcArgs
    ∧ ["/TR", taskRunArg envA tcArgs] <:+: (New false).TaskMake envA tcArgs "/CREATE" true := by
  decide

/-- Claim C10 as amended: the value following /TR in the TaskMake vector
is the run path, or the running executable when Taskrun is empty, wrapped
in double quotes, followed after one space by the white-space trim of the
argument elements joined by single spaces, each element containing a
space itself wrapped in double quotes, when that trim is non-empty. -/
theorem taskrun_value_structure (task : SchTask) (env : Env) (tc : TaskCreate)
    (command : String) (own : Bool) :
    ["/TR", taskRunArg env tc] <:+: task.TaskMake env tc command own
    ∧ taskRunArg env tc = claimTRValueTrimmed env tc := by
  refine ⟨?_, taskRunArg_eq env tc⟩
  rw [taskMake_unfold]
  simp only [_Create, List.append_assoc]
  repeat first | exact segment_self_append _ _ | apply segment_in_append

end Tasker
